import Mathlib

/-!
# Verification of the TEG Optimization Tool numeric core

Shallow embedding of `TEG_Optimizertion_Tool.py` (single file).  Real
arithmetic is modelled by `ℝ`; `numpy` polynomial helpers (`polyval`,
`polyint`, `polyder`, `convolve · [1,0]`) are translated coefficient-wise
(coefficient lists are highest-degree-first, as in numpy); `scipy`'s
adaptive quadrature `quad` is modelled by the interval integral it
approximates; the outputs of the external nonlinear solvers
(`scipy.optimize.fsolve`, `root_scalar`) are universally quantified
parameters, while the residual functions handed to those solvers are
embedded exactly.
-/

namespace TEG

noncomputable section

/-- Model of `np.polyval p x`: Horner evaluation, coefficients highest degree first. -/
def polyval (p : List ℝ) (x : ℝ) : ℝ :=
  p.foldl (fun acc c => acc * x + c) 0

/-- Model of `np.polyint p`: antiderivative coefficients; entry `i` of `p` (degree
`p.length - 1 - i`) is divided by `p.length - i`, and an integration
constant `0` is appended. -/
def polyint (p : List ℝ) : List ℝ :=
  (p.enum.map (fun ic => ic.2 / ((p.length - ic.1 : ℕ) : ℝ))) ++ [0]

/-- Model of `np.polyder p` (first derivative): drop the constant term and scale
entry `i` by the exponent `p.length - 1 - i`. -/
def polyder (p : List ℝ) : List ℝ :=
  p.dropLast.enum.map (fun ic => ic.2 * ((p.length - 1 - ic.1 : ℕ) : ℝ))

/-- Model of `np.convolve p [1, 0]`: multiplication of the polynomial by `x`
(the source only applies this to nonempty derivative arrays). -/
def polymulx (p : List ℝ) : List ℝ := p ++ [0]

/-- Model of `safe_polyval_k`: `np.maximum(np.polyval(p, T), k_min)`.  Every call
site in the source uses the default `k_min = 1e-5`. -/
def safe_polyval_k (p : List ℝ) (T : ℝ) (k_min : ℝ) : ℝ :=
  max (polyval p T) k_min

/-- Model of `safe_polyint_k`: `quad(lambda T: safe_polyval_k(p, T, k_min), T1, T2)`,
modelled as the interval integral the quadrature approximates.  Every call
site in the source uses the default `k_min = 1e-5`. -/
def safe_polyint_k (p : List ℝ) (T1 T2 : ℝ) (k_min : ℝ) : ℝ :=
  ∫ T in T1..T2, safe_polyval_k p T k_min

/-- The floored integrand is continuous (Horner evaluation is continuous
in the point), hence interval integrable. -/
lemma intervalIntegrable_safe_polyval_k (p : List ℝ) (k_min T1 T2 : ℝ) :
    IntervalIntegrable (fun T => safe_polyval_k p T k_min)
      MeasureTheory.volume T1 T2 := by
  have horner : ∀ (q : List ℝ) (g : ℝ → ℝ), Continuous g →
      Continuous (fun x => q.foldl (fun acc c => acc * x + c) (g x)) := by
    intro q
    induction q with
    | nil => intro g hg; simpa using hg
    | cons c rest ih =>
        intro g hg
        simpa using ih (fun x => g x * x + c) (by continuity)
  have hmax : Continuous (fun T => safe_polyval_k p T k_min) := by
    have hp : Continuous (fun x => polyval p x) := by
      simpa [polyval] using horner p (fun _ => 0) continuous_const
    exact hp.max continuous_const
  exact hmax.intervalIntegrable T1 T2

/-- C5: the floored thermal-conductivity integral with the default floor
`1e-5` is bounded below by `k_min * (T2 - T1)`, hence never negative, for
any coefficient vector (even one whose extrapolation is negative). -/
theorem safe_polyint_k_lower_bound (p : List ℝ) (T1 T2 : ℝ) (h : T1 ≤ T2) :
    (1e-5 : ℝ) * (T2 - T1) ≤ safe_polyint_k p T1 T2 1e-5 ∧
    0 ≤ safe_polyint_k p T1 T2 1e-5 := by
  have hconst : (1e-5 : ℝ) * (T2 - T1) ≤ safe_polyint_k p T1 T2 1e-5 := by
    have hint : (∫ _ in T1..T2, (1e-5 : ℝ)) = (T2 - T1) • (1e-5 : ℝ) :=
      intervalIntegral.integral_const _
    have hmono : (∫ _ in T1..T2, (1e-5 : ℝ)) ≤ ∫ T in T1..T2, safe_polyval_k p T 1e-5 :=
      intervalIntegral.integral_mono_on h (intervalIntegrable_const)
        (intervalIntegrable_safe_polyval_k p 1e-5 T1 T2)
        (fun x _ => le_max_right _ _)
    calc (1e-5 : ℝ) * (T2 - T1) = (T2 - T1) • (1e-5 : ℝ) := by
          simp [smul_eq_mul, mul_comm]
      _ ≤ ∫ T in T1..T2, safe_polyval_k p T 1e-5 := hint ▸ hmono
      _ = safe_polyint_k p T1 T2 1e-5 := rfl
  refine ⟨hconst, le_trans ?_ hconst⟩
  have : (0 : ℝ) ≤ T2 - T1 := sub_nonneg.mpr h
  positivity

/-- Witness for C5 at the concrete curve `[1]` on `[300, 400]`. -/
theorem safe_polyint_k_lower_bound_witness :
    (300 : ℝ) ≤ 400 ∧
    ((1e-5 : ℝ) * ((400 : ℝ) - 300) ≤ safe_polyint_k [1] 300 400 1e-5 ∧
     0 ≤ safe_polyint_k [1] 300 400 1e-5) :=
  ⟨by norm_num, safe_polyint_k_lower_bound [1] 300 400 (by norm_num)⟩

/-! ## Single-leg optimizer: `run_calc_single` (source lines 349-407)

The inputs of `run_calc_single(p_st, p_kt, p_rt, Qin, Tc, Tmax, L,
gamma_c_h, gamma_c_c)` are bundled in a structure; each local variable of
the Python function body becomes one definition over that structure.
`Th_sc` is the value returned by `fsolve(sc_eq, Tc + 20)` and is therefore
an explicit parameter of the post-solve quantities. -/

set_option genSizeOf false in
set_option genSizeOfSpec false in
set_option genInjectivity false in
structure SingleInput where
  p_st : List ℝ
  p_kt : List ℝ
  p_rt : List ℝ
  Qin : ℝ
  Tc : ℝ
  Tmax : ℝ
  L : ℝ
  gamma_c_h : ℝ
  gamma_c_c : ℝ

def Sum_st (i : SingleInput) : List ℝ := polyint i.p_st

def Sum_rt (i : SingleInput) : List ℝ := polyint i.p_rt

/-- Source: `p_taut = np.convolve(np.polyder(p_st), [1, 0])`. -/
def p_taut (i : SingleInput) : List ℝ := polymulx (polyder i.p_st)

def Sum_taut (i : SingleInput) : List ℝ := polyint (p_taut i)

def deltaT (i : SingleInput) : ℝ := i.Tmax - i.Tc

def effc (i : SingleInput) : ℝ := deltaT i / i.Tmax

def SengP (i : SingleInput) : ℝ :=
  polyval (Sum_st i) i.Tmax - polyval (Sum_st i) i.Tc

def KengP (i : SingleInput) : ℝ := safe_polyint_k i.p_kt i.Tc i.Tmax 1e-5

def RengP (i : SingleInput) : ℝ :=
  polyval (Sum_rt i) i.Tmax - polyval (Sum_rt i) i.Tc

def RengP1 (i : SingleInput) : ℝ :=
  RengP i + deltaT i * (i.gamma_c_h + i.gamma_c_c) / i.L

def ZT_eng (i : SingleInput) : ℝ :=
  SengP i ^ 2 * deltaT i / KengP i / RengP1 i

/-- Integral `quad(lambda T: polyval(Sum_taut, Th) - polyval(Sum_taut, T), Tc, Th)`,
with a general upper bound `Th` (the source evaluates it at `Tmax` in the
optimizer and at swept temperatures in the samplers). -/
def int_taut_at (i : SingleInput) (Th : ℝ) : ℝ :=
  ∫ T in i.Tc..Th, (polyval (Sum_taut i) Th - polyval (Sum_taut i) T)

def int_rt_at (i : SingleInput) (Th : ℝ) : ℝ :=
  ∫ T in i.Tc..Th, (polyval (Sum_rt i) Th - polyval (Sum_rt i) T)

def a0 (i : SingleInput) : ℝ :=
  polyval i.p_st i.Tmax * deltaT i / SengP i
    - int_taut_at i i.Tmax / (SengP i * deltaT i) * effc i

def a1 (i : SingleInput) : ℝ :=
  a0 i - effc i * (int_rt_at i i.Tmax + deltaT i ^ 2 * i.gamma_c_h / i.L)
    / RengP1 i / deltaT i

def a2 (i : SingleInput) : ℝ :=
  a0 i - 2 * effc i * (int_rt_at i i.Tmax + deltaT i ^ 2 * i.gamma_c_h / i.L)
    / RengP1 i / deltaT i

/-- Source line 369: `m = np.sqrt(1 + ZT_eng * a1 / effc)`. -/
def m_single (i : SingleInput) : ℝ :=
  Real.sqrt (1 + ZT_eng i * a1 i / effc i)

/-- Source line 370. -/
def eff_single (i : SingleInput) : ℝ :=
  effc i * (Real.sqrt (1 + ZT_eng i * a1 i / effc i) - 1)
    / (a0 i * Real.sqrt (1 + ZT_eng i * a1 i / effc i) + a2 i)

/-- Source lines 372-376. -/
def den_single (i : SingleInput) : ℝ :=
  KengP i
    + 1 / (1 + m_single i)
      * (deltaT i * SengP i * i.Tmax * polyval i.p_st i.Tmax
          - SengP i * int_taut_at i i.Tmax)
      / RengP1 i
    - 1 / (1 + m_single i) ^ 2 * SengP i ^ 2
      * (int_rt_at i i.Tmax + deltaT i ^ 2 * i.gamma_c_h / i.L) / RengP1 i ^ 2

def alpha_single (i : SingleInput) : ℝ := i.Qin / den_single i

/-- Source line 380: zero by convention when `alpha` or `deltaT` is zero. -/
def R_star_opt_single (i : SingleInput) : ℝ :=
  if alpha_single i ≠ 0 ∧ deltaT i ≠ 0 then
    1 / alpha_single i * (1 / deltaT i) * RengP1 i
  else 0

/-- Source lines 400-404, at the hot-side temperature `Th_sc` returned by
`fsolve` (the short-circuit `SengP_sc`/`RengP_sc`/`RengP1_sc` locals are
written out inline). -/
def R_star_sc_single (i : SingleInput) (Th_sc : ℝ) : ℝ :=
  if alpha_single i ≠ 0 ∧ Th_sc - i.Tc ≠ 0 then
    1 / alpha_single i * (1 / (Th_sc - i.Tc))
      * (polyval (Sum_rt i) Th_sc - polyval (Sum_rt i) i.Tc
          + (Th_sc - i.Tc) * (i.gamma_c_h + i.gamma_c_c) / i.L)
  else 0

/-- Source line 405. -/
def Isc_single (i : SingleInput) (Th_sc : ℝ) : ℝ :=
  if R_star_sc_single i Th_sc ≠ 0 then
    |(polyval (Sum_st i) Th_sc - polyval (Sum_st i) i.Tc)
      / R_star_sc_single i Th_sc|
  else 0

/-- C1: the returned optimal load ratio and efficiency of
`run_calc_single` are the closed forms of source lines 369-370, expressed
through the engineering figure of merit, the correction coefficients and
the Carnot-like reference efficiency. -/
theorem run_calc_single_m_eff (i : SingleInput) :
    m_single i = Real.sqrt (1 + ZT_eng i * a1 i / effc i) ∧
    eff_single i =
      effc i * (Real.sqrt (1 + ZT_eng i * a1 i / effc i) - 1)
        / (a0 i * Real.sqrt (1 + ZT_eng i * a1 i / effc i) + a2 i) :=
  ⟨rfl, rfl⟩

/-! ## Couple optimizer: `run_calc_Couple` (source lines 409-510)

Same conventions as for the single leg; the couple's local variables live
in the `Couple` namespace so they can keep their source names. -/

set_option genSizeOf false in
set_option genSizeOfSpec false in
set_option genInjectivity false in
/-- One leg's raw arguments of `run_calc_Couple`: its three property
coefficient vectors and its hot/cold contact resistivities. -/
structure LegInput where
  st : List ℝ
  kt : List ℝ
  rt : List ℝ
  rch : ℝ
  rcc : ℝ

set_option genSizeOf false in
set_option genSizeOfSpec false in
set_option genInjectivity false in
structure CoupleInput where
  Qin : ℝ
  Tc : ℝ
  Th : ℝ
  L : ℝ
  p : LegInput
  n : LegInput

namespace Couple

def Sum_pst (c : CoupleInput) : List ℝ := polyint c.p.st

def Sum_prt (c : CoupleInput) : List ℝ := polyint c.p.rt

def Sum_ptaut (c : CoupleInput) : List ℝ := polyint (polymulx (polyder c.p.st))

def Sum_nst (c : CoupleInput) : List ℝ := polyint c.n.st

def Sum_nrt (c : CoupleInput) : List ℝ := polyint c.n.rt

def Sum_ntaut (c : CoupleInput) : List ℝ := polyint (polymulx (polyder c.n.st))

def deltaT (c : CoupleInput) : ℝ := c.Th - c.Tc

def effc (c : CoupleInput) : ℝ := deltaT c / c.Th

def SengP (c : CoupleInput) : ℝ :=
  polyval (Sum_pst c) c.Th - polyval (Sum_pst c) c.Tc

def KengP (c : CoupleInput) : ℝ := safe_polyint_k c.p.kt c.Tc c.Th 1e-5

def RengP (c : CoupleInput) : ℝ :=
  polyval (Sum_prt c) c.Th - polyval (Sum_prt c) c.Tc

def SengN (c : CoupleInput) : ℝ :=
  polyval (Sum_nst c) c.Th - polyval (Sum_nst c) c.Tc

def KengN (c : CoupleInput) : ℝ := safe_polyint_k c.n.kt c.Tc c.Th 1e-5

def RengN (c : CoupleInput) : ℝ :=
  polyval (Sum_nrt c) c.Th - polyval (Sum_nrt c) c.Tc

def RengP1 (c : CoupleInput) : ℝ :=
  RengP c + deltaT c * (c.p.rch + c.p.rcc) / c.L

def RengN1 (c : CoupleInput) : ℝ :=
  RengN c + deltaT c * (c.n.rch + c.n.rcc) / c.L

/-- Source line 430: the optimal N/P area ratio, `1.0` when the guard
`RengP1 * KengN != 0` fails. -/
def beta (c : CoupleInput) : ℝ :=
  if RengP1 c * KengN c ≠ 0 then
    Real.sqrt (RengN1 c * KengP c / (RengP1 c * KengN c))
  else 1

def ZT_eng (c : CoupleInput) : ℝ :=
  (SengP c - SengN c) ^ 2 * deltaT c
    / (Real.sqrt (KengP c * RengP1 c) + Real.sqrt (KengN c * RengN1 c)) ^ 2

def int_ptaut_at (c : CoupleInput) (Th : ℝ) : ℝ :=
  ∫ T in c.Tc..Th, (polyval (Sum_ptaut c) Th - polyval (Sum_ptaut c) T)

def int_ntaut_at (c : CoupleInput) (Th : ℝ) : ℝ :=
  ∫ T in c.Tc..Th, (polyval (Sum_ntaut c) Th - polyval (Sum_ntaut c) T)

def int_prt_at (c : CoupleInput) (Th : ℝ) : ℝ :=
  ∫ T in c.Tc..Th, (polyval (Sum_prt c) Th - polyval (Sum_prt c) T)

def int_nrt_at (c : CoupleInput) (Th : ℝ) : ℝ :=
  ∫ T in c.Tc..Th, (polyval (Sum_nrt c) Th - polyval (Sum_nrt c) T)

def a0 (c : CoupleInput) : ℝ :=
  (polyval c.p.st c.Th - polyval c.n.st c.Th) * deltaT c / (SengP c - SengN c)
    - (int_ptaut_at c c.Th - int_ntaut_at c c.Th)
      / ((SengP c - SengN c) * deltaT c) * effc c

def a1 (c : CoupleInput) : ℝ :=
  a0 c - effc c
    * (int_prt_at c c.Th + beta c * int_nrt_at c c.Th
        + deltaT c ^ 2 * (c.p.rch + beta c * c.n.rch) / c.L)
    / (RengP1 c + beta c * RengN1 c) / deltaT c

def a2 (c : CoupleInput) : ℝ :=
  a0 c - 2 * effc c
    * (int_prt_at c c.Th + beta c * int_nrt_at c c.Th
        + deltaT c ^ 2 * (c.p.rch + beta c * c.n.rch) / c.L)
    / (RengP1 c + beta c * RengN1 c) / deltaT c

def m (c : CoupleInput) : ℝ := Real.sqrt (1 + ZT_eng c * a1 c / effc c)

/-- Source lines 449-451. -/
def denP (c : CoupleInput) : ℝ :=
  KengP c
    + ((SengP c - SengN c) * c.Th * polyval c.p.st c.Th * deltaT c
        - (SengP c - SengN c) * int_ptaut_at c c.Th)
      / (1 + m c) / (RengP1 c + (beta c)⁻¹ * RengN1 c)
    - (SengP c - SengN c) ^ 2 * (int_prt_at c c.Th + deltaT c ^ 2 * c.p.rch / c.L)
      / (1 + m c) ^ 2 / (RengP1 c + (beta c)⁻¹ * RengN1 c) ^ 2

/-- Source lines 453-455. -/
def denN (c : CoupleInput) : ℝ :=
  KengN c
    - ((SengP c - SengN c) * c.Th * polyval c.n.st c.Th * deltaT c
        - (SengP c - SengN c) * int_ntaut_at c c.Th)
      / (1 + m c) / (beta c * RengP1 c + RengN1 c)
    - (SengP c - SengN c) ^ 2 * (int_nrt_at c c.Th + deltaT c ^ 2 * c.n.rch / c.L)
      / (1 + m c) ^ 2 / (beta c * RengP1 c + RengN1 c) ^ 2

def alphaP (c : CoupleInput) : ℝ := c.Qin / (denP c + beta c * denN c)

def alphaN (c : CoupleInput) : ℝ := beta c * alphaP c

/-- Source lines 463-466. -/
def R_star_opt (c : CoupleInput) : ℝ :=
  if deltaT c = 0 ∨ alphaP c = 0 ∨ alphaN c = 0 then 0
  else (RengP1 c / alphaP c + RengN1 c / alphaN c) / deltaT c

/-- Source lines 497-502, at the `Th_sc` returned by `fsolve`. -/
def SengP_sc (c : CoupleInput) (Th_sc : ℝ) : ℝ :=
  polyval (Sum_pst c) Th_sc - polyval (Sum_pst c) c.Tc

def SengN_sc (c : CoupleInput) (Th_sc : ℝ) : ℝ :=
  polyval (Sum_nst c) Th_sc - polyval (Sum_nst c) c.Tc

def RengP1_sc (c : CoupleInput) (Th_sc : ℝ) : ℝ :=
  polyval (Sum_prt c) Th_sc - polyval (Sum_prt c) c.Tc
    + (Th_sc - c.Tc) * (c.p.rch + c.p.rcc) / c.L

def RengN1_sc (c : CoupleInput) (Th_sc : ℝ) : ℝ :=
  polyval (Sum_nrt c) Th_sc - polyval (Sum_nrt c) c.Tc
    + (Th_sc - c.Tc) * (c.n.rch + c.n.rcc) / c.L

/-- Source lines 504-507. -/
def R_star_sc (c : CoupleInput) (Th_sc : ℝ) : ℝ :=
  if Th_sc - c.Tc = 0 ∨ alphaP c = 0 ∨ alphaN c = 0 then 0
  else (RengP1_sc c Th_sc / alphaP c + RengN1_sc c Th_sc / alphaN c)
    / (Th_sc - c.Tc)

/-- Source line 508: note the signed value, with no absolute value. -/
def Isc (c : CoupleInput) (Th_sc : ℝ) : ℝ :=
  if R_star_sc c Th_sc ≠ 0 then
    (SengP_sc c Th_sc - SengN_sc c Th_sc) / R_star_sc c Th_sc
  else 0

end Couple

/-! ## Boundary residuals and `on_calc` derived outputs
(source lines 788-789 and 838-844) -/

/-- The single-leg open-circuit residual handed to `fsolve` (line 788):
`alpha * safe_polyint_k(k_poly, Tc, Th) - Qin if Th > Tc else Qin`. -/
def oc_eq_single (i : SingleInput) (Th : ℝ) : ℝ :=
  if Th > i.Tc then alpha_single i * safe_polyint_k i.p_kt i.Tc Th 1e-5 - i.Qin
  else i.Qin

/-- Line 789: open-circuit voltage of the single leg (absolute value). -/
def Voc_single (i : SingleInput) (Th_oc : ℝ) : ℝ :=
  |polyval (polyint i.p_st) Th_oc - polyval (polyint i.p_st) i.Tc|

/-- Model of `eq_oc_Couple` (lines 838-840): pure-conduction residual of the
couple's open-circuit solve. -/
def eq_oc_Couple (c : CoupleInput) (Th : ℝ) : ℝ :=
  if Th ≤ c.Tc then c.Qin
  else Couple.alphaP c * safe_polyint_k c.p.kt c.Tc Th 1e-5
    + Couple.alphaN c * safe_polyint_k c.n.kt c.Tc Th 1e-5 - c.Qin

/-- Lines 843-844: the couple's open-circuit voltage, the signed
difference of the integrated Seebeck coefficients (no absolute value). -/
def Voc_couple (c : CoupleInput) (Th_oc : ℝ) : ℝ :=
  (polyval (Couple.Sum_pst c) Th_oc - polyval (Couple.Sum_pst c) c.Tc)
    - (polyval (Couple.Sum_nst c) Th_oc - polyval (Couple.Sum_nst c) c.Tc)

/-! ## Operating point at a given load ratio
(`_solve_Th_I_at_m_single`, lines 900-923; `_solve_Th_I_at_m_Couple`,
lines 926-967).  `Th_opt` is the value returned by `fsolve`. -/

/-- Source line 921. -/
def R_star_atm_single (i : SingleInput) (Th_opt : ℝ) : ℝ :=
  if alpha_single i ≠ 0 ∧ Th_opt - i.Tc ≠ 0 then
    1 / alpha_single i * (1 / (Th_opt - i.Tc))
      * (polyval (Sum_rt i) Th_opt - polyval (Sum_rt i) i.Tc
          + (Th_opt - i.Tc) * (i.gamma_c_h + i.gamma_c_c) / i.L)
  else 0

/-- Source line 922. -/
def I_atm_single (i : SingleInput) (m Th_opt : ℝ) : ℝ :=
  if R_star_atm_single i Th_opt ≠ 0 then
    |(polyval (Sum_st i) Th_opt - polyval (Sum_st i) i.Tc)
      / (R_star_atm_single i Th_opt * (1 + m))|
  else 0

/-- Source line 964, with `alphaN = alphaP * beta` from line 963. -/
def R_star_atm_couple (c : CoupleInput) (Th_opt : ℝ) : ℝ :=
  if Th_opt - c.Tc ≠ 0 ∧ Couple.alphaP c ≠ 0 ∧ Couple.alphaP c * Couple.beta c ≠ 0 then
    (Couple.RengP1_sc c Th_opt / Couple.alphaP c
      + Couple.RengN1_sc c Th_opt / (Couple.alphaP c * Couple.beta c))
      / (Th_opt - c.Tc)
  else 0

/-- Source lines 965-966 (signed, no absolute value). -/
def I_atm_couple (c : CoupleInput) (m Th_opt : ℝ) : ℝ :=
  if R_star_atm_couple c Th_opt ≠ 0 then
    (Couple.SengP_sc c Th_opt - Couple.SengN_sc c Th_opt)
      / (R_star_atm_couple c Th_opt * (1 + m))
  else 0

/-! ## Load-curve sampler
(`_generate_single_leg_curve_data`, lines 986-1050;
`_generate_Couple_curve_data`, lines 1052-1136;
`on_generate_curves`, lines 970-984).

`np.linspace` is embedded directly; the per-sample outcome of
`root_scalar(..., method='brentq', bracket=[1e-12, 1e7])` is a parameter
`solve : ℝ → Option ℝ` (`none` models non-convergence or an exception,
which the source catches with `continue`). -/

/-- Model of `np.linspace a b n` (endpoints included). -/
def linspace (a b : ℝ) (n : ℕ) : List ℝ :=
  (List.range n).map (fun j : ℕ => a + (b - a) * (j : ℝ) / ((n : ℝ) - 1))

set_option genSizeOf false in
set_option genSizeOfSpec false in
/-- One row appended to the `results` dict by the sampler loops. -/
structure CurvePoint where
  th : ℝ
  v : ℝ
  eta : ℝ
  m : ℝ
  i : ℝ
  rstar : ℝ

set_option genSizeOf false in
set_option genSizeOfSpec false in
/-- The parallel `results` lists of the samplers. -/
structure CurveData where
  th : List ℝ
  v_load : List ℝ
  eta : List ℝ
  m : List ℝ
  i : List ℝ
  rstar : List ℝ

/-- Residual of the single-leg sampler (lines 995-1010), with the fixed
geometry `alpha` taken from the stored optimization result. -/
def heat_balance_eq_single (i : SingleInput) (m Th : ℝ) : ℝ :=
  if m < 0 then i.Qin
  else if Th ≤ i.Tc + 1e-6 then -i.Qin
  else
    let dt := Th - i.Tc
    let Seng := polyval (Sum_st i) Th - polyval (Sum_st i) i.Tc
    let Keng := safe_polyint_k i.p_kt i.Tc Th 1e-5
    let Reng1 := polyval (Sum_rt i) Th - polyval (Sum_rt i) i.Tc
      + dt * (i.gamma_c_h + i.gamma_c_c) / i.L
    if |Reng1| < 1e-12 then alpha_single i * Keng - i.Qin
    else
      alpha_single i
        * (Keng
            + 1 / (1 + m) * (dt * Seng * Th * polyval i.p_st Th - Seng * int_taut_at i Th)
              / Reng1
            - 1 / (1 + m) ^ 2 * Seng ^ 2
              * (int_rt_at i Th + dt ^ 2 * i.gamma_c_h / i.L) / Reng1 ^ 2)
        - i.Qin

/-- Loop body of the single-leg sampler (lines 1019-1039), given the
converged root `m_val`; `none` models the two `continue` filters. -/
def singleSample (i : SingleInput) (Th m_val : ℝ) : Option CurvePoint :=
  if Th - i.Tc ≤ 0 then none
  else
    let dt := Th - i.Tc
    let Seng := polyval (Sum_st i) Th - polyval (Sum_st i) i.Tc
    let Reng1 := polyval (Sum_rt i) Th - polyval (Sum_rt i) i.Tc
      + dt * (i.gamma_c_h + i.gamma_c_c) / i.L
    let R_star := if alpha_single i ≠ 0 ∧ dt ≠ 0 then
      1 / alpha_single i * (1 / dt) * Reng1 else 0
    if R_star ≤ 0 then none
    else
      let I := |Seng / (R_star * (1 + m_val))|
      let V := I * m_val * R_star
      some ⟨Th, V, I * V / i.Qin * 100, m_val, I, R_star⟩

def curveSingleRaw (i : SingleInput) (solve : ℝ → Option ℝ) (ths : List ℝ) :
    List CurvePoint :=
  ths.filterMap (fun th => (solve th).bind (fun mv => singleSample i th mv))

/-- Lines 1043-1049 / 1129-1135: prepend the short-circuit point and
append the open-circuit point when at least one sample survived. -/
def assembleCurve (Th_sc Th_oc Voc Isc R_star_opt : ℝ) (pts : List CurvePoint) :
    CurveData :=
  if 1 ≤ pts.length then
    ⟨Th_sc :: pts.map (·.th) ++ [Th_oc],
     0 :: pts.map (·.v) ++ [Voc],
     0 :: pts.map (·.eta) ++ [0],
     0 :: pts.map (·.m) ++ [1e9],
     Isc :: pts.map (·.i) ++ [0],
     R_star_opt :: pts.map (·.rstar) ++ [R_star_opt]⟩
  else
    ⟨pts.map (·.th), pts.map (·.v), pts.map (·.eta), pts.map (·.m),
     pts.map (·.i), pts.map (·.rstar)⟩

/-- Model of `_generate_single_leg_curve_data`, with the stored `last_results`
fields written out (`Voc`, `Isc`, `R_star_opt` are the `on_calc` values at
the solver outputs `Th_sc`, `Th_oc`). -/
def generate_single_leg_curve_data (i : SingleInput) (Th_sc Th_oc : ℝ)
    (solve : ℝ → Option ℝ) : CurveData :=
  assembleCurve Th_sc Th_oc (Voc_single i Th_oc) (Isc_single i Th_sc)
    (R_star_opt_single i)
    (curveSingleRaw i solve (linspace Th_sc Th_oc 50))

/-- Residual of the couple sampler (lines 1066-1091), with stored
`alphaP` and `beta`. -/
def heat_balance_eq_couple (c : CoupleInput) (m Th : ℝ) : ℝ :=
  if m < 0 then c.Qin
  else if Th ≤ c.Tc + 1e-6 then -c.Qin
  else
    let dt := Th - c.Tc
    let SP := polyval (Couple.Sum_pst c) Th - polyval (Couple.Sum_pst c) c.Tc
    let SN := polyval (Couple.Sum_nst c) Th - polyval (Couple.Sum_nst c) c.Tc
    let KP := safe_polyint_k c.p.kt c.Tc Th 1e-5
    let KN := safe_polyint_k c.n.kt c.Tc Th 1e-5
    let RP1 := polyval (Couple.Sum_prt c) Th - polyval (Couple.Sum_prt c) c.Tc
      + dt * (c.p.rch + c.p.rcc) / c.L
    let RN1 := polyval (Couple.Sum_nrt c) Th - polyval (Couple.Sum_nrt c) c.Tc
      + dt * (c.n.rch + c.n.rcc) / c.L
    if |RP1 + (Couple.beta c)⁻¹ * RN1| < 1e-12 then
      Couple.alphaP c * (KP + Couple.beta c * KN) - c.Qin
    else
      let dS := SP - SN
      let dP := KP
        + (dS * Th * polyval c.p.st Th * dt - dS * Couple.int_ptaut_at c Th)
          / ((1 + m) * (RP1 + (Couple.beta c)⁻¹ * RN1))
        - dS ^ 2 * (Couple.int_prt_at c Th + dt ^ 2 * c.p.rch / c.L)
          / ((1 + m) ^ 2 * (RP1 + (Couple.beta c)⁻¹ * RN1) ^ 2)
      let dN := KN
        - (dS * Th * polyval c.n.st Th * dt - dS * Couple.int_ntaut_at c Th)
          / ((1 + m) * (Couple.beta c * RP1 + RN1))
        - dS ^ 2 * (Couple.int_nrt_at c Th + dt ^ 2 * c.n.rch / c.L)
          / ((1 + m) ^ 2 * (Couple.beta c * RP1 + RN1) ^ 2)
      Couple.alphaP c * (dP + Couple.beta c * dN) - c.Qin

/-- Loop body of the couple sampler (lines 1100-1125); note the signed
current (no absolute value). -/
def coupleSample (c : CoupleInput) (Th m_val : ℝ) : Option CurvePoint :=
  if Th - c.Tc ≤ 0 then none
  else
    let dt := Th - c.Tc
    let SP := polyval (Couple.Sum_pst c) Th - polyval (Couple.Sum_pst c) c.Tc
    let SN := polyval (Couple.Sum_nst c) Th - polyval (Couple.Sum_nst c) c.Tc
    let RP1 := polyval (Couple.Sum_prt c) Th - polyval (Couple.Sum_prt c) c.Tc
      + dt * (c.p.rch + c.p.rcc) / c.L
    let RN1 := polyval (Couple.Sum_nrt c) Th - polyval (Couple.Sum_nrt c) c.Tc
      + dt * (c.n.rch + c.n.rcc) / c.L
    let alphaN := Couple.alphaP c * Couple.beta c
    let R_star := if dt ≠ 0 ∧ Couple.alphaP c ≠ 0 ∧ alphaN ≠ 0 then
      (RP1 / Couple.alphaP c + RN1 / alphaN) / dt else 0
    if R_star ≤ 0 then none
    else
      let I := (SP - SN) / (R_star * (1 + m_val))
      let V := I * m_val * R_star
      some ⟨Th, V, I * V / c.Qin * 100, m_val, I, R_star⟩

def curveCoupleRaw (c : CoupleInput) (solve : ℝ → Option ℝ) (ths : List ℝ) :
    List CurvePoint :=
  ths.filterMap (fun th => (solve th).bind (fun mv => coupleSample c th mv))

def generate_Couple_curve_data (c : CoupleInput) (Th_sc Th_oc : ℝ)
    (solve : ℝ → Option ℝ) : CurveData :=
  assembleCurve Th_sc Th_oc (Voc_couple c Th_oc) (Couple.Isc c Th_sc)
    (Couple.R_star_opt c)
    (curveCoupleRaw c solve (linspace Th_sc Th_oc 50))

/-- Failure check of `on_generate_curves` (lines 979-981): it reports an error exactly when
`len(data['v_load']) < 3` (the generators never return `None`). -/
def on_generate_fails (d : CurveData) : Prop := d.v_load.length < 3

/-! ## Curve fitter: `parse_input` (source lines 302-321)

The regex layer (`extract_data_from_text`, the bracket test, the
`'T' in txt and '=' not in txt` test) and the external library calls
(`np.polyfit`, `eval`) are abstracted into the values they produce for the
given text; the branch structure, and which error each branch raises, are
embedded exactly:
* `arrx`, `arry`: the two `extract_data_from_text` results (`none` = no
  regex matched);
* `isBracket`: whether `txt.startswith('[') and txt.endswith(']')`, and
  `bareVals` the float-parsed contents (`none` = a token failed
  `float(...)`, which raises a conversion `ValueError` that does not
  mention the property);
* `isExprForm`: whether `('T' in txt or 't' in txt) and ('=' not in txt)`,
  and `evalVals` the values of the expression on the 13-point grid
  (`none` = `eval` raised, again without mentioning the property);
* `fit`: the least-squares solution `np.polyfit` returns on equal-length
  arrays; on arrays of different lengths `np.polyfit` raises
  `TypeError("expected x and y to have same length")`, which does not
  mention the property either. -/

set_option genSizeOf false in
set_option genSizeOfSpec false in
set_option genInjectivity false in
inductive ParseError where
  /-- Error `ValueError(f"Failed to parse {varname} input")`, line 321: the only
  error of `parse_input` that names the offending property. -/
  | failedToParse (varname : String)
  /-- Error of `np.polyfit` on length mismatch `TypeError`; no property name. -/
  | fitLengthMismatch
  /-- Error of `float(...)` conversion, a `ValueError` in the bare-bracket branch; no
  property name. -/
  | floatConvError
  /-- Error of `eval` in the expression branch; no property name. -/
  | exprEvalError

/-- Model of `np.polyfit x y deg`, with the least-squares solution abstracted as
`fit`. -/
def polyfit (fit : List ℝ → List ℝ → ℕ → List ℝ) (x y : List ℝ) (deg : ℕ) :
    Except ParseError (List ℝ) :=
  if x.length = y.length then .ok (fit x y deg) else .error .fitLengthMismatch

/-- Model of `parse_input` (lines 302-321): branch order is pair-fit, bare
coefficient list, symbolic expression, error. -/
def parse_input (fit : List ℝ → List ℝ → ℕ → List ℝ)
    (arrx arry : Option (List ℝ))
    (isBracket : Bool) (bareVals : Option (List ℝ))
    (isExprForm : Bool) (evalVals : Option (List ℝ))
    (deg : ℕ) (varname : String) : Except ParseError (List ℝ) :=
  match arrx, arry with
  | some xs, some ys => polyfit fit xs ys deg
  | _, _ =>
    if isBracket then
      match bareVals with
      | some cs => .ok cs
      | none => .error .floatConvError
    else if isExprForm then
      match evalVals with
      | some ys => polyfit fit (linspace 300 900 13) ys deg
      | none => .error .exprEvalError
    else .error (.failedToParse varname)

/-! ## Computation helpers for concrete inputs -/

lemma safe_polyint_k_const (k T1 T2 : ℝ) (h : (1e-5 : ℝ) ≤ k) :
    safe_polyint_k [k] T1 T2 1e-5 = k * (T2 - T1) := by
  have hval : ∀ T : ℝ, safe_polyval_k [k] T 1e-5 = k := fun T => by
    simp [safe_polyval_k, polyval, max_eq_left h]
  delta safe_polyint_k
  simp only [hval]
  rw [intervalIntegral.integral_const]
  simp [smul_eq_mul, mul_comm]

lemma integral_const_sub_id (A a b : ℝ) :
    (∫ T in a..b, (A - T)) = A * (b - a) - (b ^ 2 - a ^ 2) / 2 := by
  rw [intervalIntegral.integral_sub intervalIntegrable_const
        ((by fun_prop : Continuous fun T : ℝ => T).intervalIntegrable a b)]
  rw [intervalIntegral.integral_const, integral_id]
  simp [smul_eq_mul]
  ring

lemma filterMap_replicate_some {α β : Type _} (f : α → Option β) (x : α) (b : β)
    (h : f x = some b) (n : ℕ) :
    List.filterMap f (List.replicate n x) = List.replicate n b := by
  induction n with
  | zero => simp
  | succ k ih => simp [List.replicate_succ, List.filterMap_cons, h, ih]

lemma linspace_self (a : ℝ) (n : ℕ) : linspace a a n = List.replicate n a := by
  delta linspace
  have h : ∀ j ∈ List.range n, a + (a - a) * (j : ℝ) / ((n : ℝ) - 1) = a := by
    intro j _; ring
  rw [List.map_congr_left h,
      show (fun (_ : ℕ) => a) = Function.const ℕ a from rfl,
      List.map_const, List.length_range]

/-! ## A concrete single-leg run

Constant properties `S = 1`, `κ = 150`, `ρ = 1` (the Seebeck curve is
given as the degree-1 coefficient vector `[0, 1]` so that the Thomson
branch `polyder`/`convolve` is exercised on a nonempty array), with
`Qin = 1`, `Tc = 300 K`, `Tmax = 600 K`, `L = 1`, no contact resistance.
All optimizer quantities have exact rational values, e.g. `m_opt = 2`. -/

def scon : SingleInput := ⟨[0, 1], [150], [1], 1, 300, 600, 1, 0, 0⟩

/-- Closed forms of the four polynomial evaluations of the concrete run:
integrated Seebeck `T`, integrated resistivity `T`, integrated Thomson
`0`, raw Seebeck `1`. -/
lemma scon_polys :
    (∀ T : ℝ, polyval (Sum_st scon) T = T) ∧
    (∀ T : ℝ, polyval (Sum_rt scon) T = T) ∧
    (∀ T : ℝ, polyval (Sum_taut scon) T = 0) ∧
    (∀ T : ℝ, polyval scon.p_st T = 1) := by
  refine ⟨fun T => ?_, fun T => ?_, fun T => ?_, fun T => ?_⟩
  · delta Sum_st scon
    norm_num [polyint, polyval, List.enum, List.enumFrom]
  · delta Sum_rt scon
    norm_num [polyint, polyval, List.enum, List.enumFrom]
  · delta Sum_taut p_taut scon
    norm_num [polyint, polyval, polyder, polymulx, List.enum, List.enumFrom]
  · delta scon
    norm_num [polyval]

/-- The two quadratures of the concrete run in closed form. -/
lemma scon_ints :
    (∀ Th : ℝ, int_taut_at scon Th = 0) ∧
    (∀ Th : ℝ, int_rt_at scon Th = Th * (Th - 300) - (Th ^ 2 - 300 ^ 2) / 2) := by
  constructor
  · intro Th
    delta int_taut_at
    simp [scon_polys.2.2.1]
  · intro Th
    delta int_rt_at
    simp only [scon_polys.2.1]
    rw [show scon.Tc = (300 : ℝ) from rfl, integral_const_sub_id]

/-- The full evaluation chain of `run_calc_single` on the concrete run:
`SengP = 300`, `KengP = 45000`, `RengP1 = 300`, `ZT_eng = 2`, `a0 = 1`,
`a1 = 3/4`, `m = 2`, `den = 100000`, hence `alpha = 1/100000`. -/
lemma scon_alpha : alpha_single scon = 1 / 100000 := by
  have hS : SengP scon = 300 := by
    delta SengP
    rw [scon_polys.1, scon_polys.1]; norm_num [scon]
  have hK : KengP scon = 45000 := by
    delta KengP
    rw [show scon.p_kt = [(150 : ℝ)] from rfl,
        show scon.Tc = (300 : ℝ) from rfl, show scon.Tmax = (600 : ℝ) from rfl,
        safe_polyint_k_const 150 300 600 (by norm_num)]
    norm_num
  have hR : RengP1 scon = 300 := by
    delta RengP1 RengP deltaT
    rw [scon_polys.2.1, scon_polys.2.1]; norm_num [scon]
  have hdT : deltaT scon = 300 := by delta deltaT; norm_num [scon]
  have heff : effc scon = 1 / 2 := by delta effc; rw [hdT]; norm_num [scon]
  have hZT : ZT_eng scon = 2 := by
    delta ZT_eng
    rw [hS, hdT, hK, hR]; norm_num
  have ha0 : a0 scon = 1 := by
    delta a0
    rw [hS, hdT, scon_ints.1, heff,
        show scon.Tmax = (600 : ℝ) from rfl, scon_polys.2.2.2]
    norm_num
  have ha1 : a1 scon = 3 / 4 := by
    delta a1
    rw [ha0, heff, show scon.Tmax = (600 : ℝ) from rfl, scon_ints.2,
        hdT, hR]
    norm_num [scon]
  have hm : m_single scon = 2 := by
    delta m_single
    rw [hZT, ha1, heff, show (1 : ℝ) + 2 * (3 / 4) / (1 / 2) = 2 ^ 2 by norm_num]
    exact Real.sqrt_sq (by norm_num)
  have hden : den_single scon = 100000 := by
    delta den_single
    rw [hK, hm, hdT, hS, scon_ints.1,
        show scon.Tmax = (600 : ℝ) from rfl, scon_ints.2, hR, scon_polys.2.2.2]
    norm_num [scon]
  delta alpha_single
  rw [hden]; norm_num [scon]

/-- The swept sample of the concrete run at `Th = 600` with converged root
`m = 2`. -/
lemma scon_sample :
    singleSample scon 600 2 = some ⟨600, 200, 20, 2, 1 / 1000, 100000⟩ := by
  delta singleSample
  rw [if_neg (by norm_num [scon] : ¬((600 : ℝ) - scon.Tc ≤ 0))]
  simp only [scon_polys.1, scon_polys.2.1, scon_alpha]
  norm_num [scon, abs_of_nonneg]

/-- Root check: `m = 2` is an exact root of the sampler residual at
`Th = 600` for the concrete single-leg run, so `brentq` (bracket
`[1e-12, 1e7]`) can legitimately converge to it. -/
lemma scon_root : heat_balance_eq_single scon 2 600 = 0 := by
  delta heat_balance_eq_single
  rw [if_neg (by norm_num : ¬((2 : ℝ) < 0)),
      if_neg (by norm_num [scon] : ¬((600 : ℝ) ≤ scon.Tc + 1e-6))]
  simp only [scon_polys.1, scon_polys.2.1, scon_ints.1, scon_ints.2,
    scon_alpha, scon_polys.2.2.2]
  rw [show scon.Tc = (300 : ℝ) from rfl, show scon.p_kt = [(150 : ℝ)] from rfl,
      safe_polyint_k_const 150 300 600 (by norm_num)]
  norm_num [scon]

lemma scon_raw_const :
    curveSingleRaw scon (fun _ => some 2) (linspace 600 600 50)
      = List.replicate 50 ⟨600, 200, 20, 2, 1 / 1000, 100000⟩ := by
  delta curveSingleRaw
  rw [linspace_self]
  exact filterMap_replicate_some _ _ _ scon_sample 50

/-! ## A concrete couple run with swapped leg polarities

Constant properties with the P leg given the negative Seebeck curve
(`S_P = -1`, `S_N = +1`, both κ = 150 and ρ = 1), `Qin = 1`, `Tc = 300 K`,
`Tmax = 600 K`, `L = 1`, no contact resistance.  The couple formulas are
all exact: `β = 1`, `m = 2`, `αP = αN = 1/200000`, while
`SengP - SengN = -2 (Th - Tc) < 0`, so every signed current and voltage
the couple branch produces is negative. -/

def ccon : CoupleInput :=
  ⟨1, 300, 600, 1, ⟨[0, -1], [150], [1], 0, 0⟩, ⟨[0, 1], [150], [1], 0, 0⟩⟩

/-- Closed forms of the polynomial evaluations of the concrete couple run
(P-leg integrated Seebeck `-T`, N-leg `T`, both integrated resistivities
`T`, both integrated Thomson `0`, raw Seebeck `-1` / `1`). -/
lemma ccon_polys :
    (∀ T : ℝ, polyval (Couple.Sum_pst ccon) T = -T) ∧
    (∀ T : ℝ, polyval (Couple.Sum_nst ccon) T = T) ∧
    (∀ T : ℝ, polyval (Couple.Sum_prt ccon) T = T) ∧
    (∀ T : ℝ, polyval (Couple.Sum_nrt ccon) T = T) ∧
    (∀ T : ℝ, polyval (Couple.Sum_ptaut ccon) T = 0) ∧
    (∀ T : ℝ, polyval (Couple.Sum_ntaut ccon) T = 0) ∧
    (∀ T : ℝ, polyval ccon.p.st T = -1) ∧
    (∀ T : ℝ, polyval ccon.n.st T = 1) := by
  refine ⟨fun T => ?_, fun T => ?_, fun T => ?_, fun T => ?_,
    fun T => ?_, fun T => ?_, fun T => ?_, fun T => ?_⟩
  · delta Couple.Sum_pst ccon
    norm_num [polyint, polyval, List.enum, List.enumFrom]
  · delta Couple.Sum_nst ccon
    norm_num [polyint, polyval, List.enum, List.enumFrom]
  · delta Couple.Sum_prt ccon
    norm_num [polyint, polyval, List.enum, List.enumFrom]
  · delta Couple.Sum_nrt ccon
    norm_num [polyint, polyval, List.enum, List.enumFrom]
  · delta Couple.Sum_ptaut ccon
    norm_num [polyint, polyval, polyder, polymulx, List.enum, List.enumFrom]
  · delta Couple.Sum_ntaut ccon
    norm_num [polyint, polyval, polyder, polymulx, List.enum, List.enumFrom]
  · delta ccon
    norm_num [polyval]
  · delta ccon
    norm_num [polyval]

/-- The four quadratures of the concrete couple run in closed form. -/
lemma ccon_ints :
    (∀ Th : ℝ, Couple.int_ptaut_at ccon Th = 0) ∧
    (∀ Th : ℝ, Couple.int_ntaut_at ccon Th = 0) ∧
    (∀ Th : ℝ, Couple.int_prt_at ccon Th
      = Th * (Th - 300) - (Th ^ 2 - 300 ^ 2) / 2) ∧
    (∀ Th : ℝ, Couple.int_nrt_at ccon Th
      = Th * (Th - 300) - (Th ^ 2 - 300 ^ 2) / 2) := by
  refine ⟨fun Th => ?_, fun Th => ?_, fun Th => ?_, fun Th => ?_⟩
  · delta Couple.int_ptaut_at
    simp [ccon_polys.2.2.2.2.1]
  · delta Couple.int_ntaut_at
    simp [ccon_polys.2.2.2.2.2.1]
  · delta Couple.int_prt_at
    simp only [ccon_polys.2.2.1]
    rw [show ccon.Tc = (300 : ℝ) from rfl, integral_const_sub_id]
  · delta Couple.int_nrt_at
    simp only [ccon_polys.2.2.2.1]
    rw [show ccon.Tc = (300 : ℝ) from rfl, integral_const_sub_id]

lemma ccon_RengP1 : Couple.RengP1 ccon = 300 := by
  delta Couple.RengP1 Couple.RengP Couple.deltaT
  rw [ccon_polys.2.2.1, ccon_polys.2.2.1]
  norm_num [ccon]

lemma ccon_KengN : Couple.KengN ccon = 45000 := by
  delta Couple.KengN
  rw [show ccon.n.kt = [(150 : ℝ)] from rfl,
      show ccon.Tc = (300 : ℝ) from rfl, show ccon.Th = (600 : ℝ) from rfl,
      safe_polyint_k_const 150 300 600 (by norm_num)]
  norm_num

lemma ccon_beta : Couple.beta ccon = 1 := by
  have hK : Couple.KengP ccon = 45000 := by
    delta Couple.KengP
    rw [show ccon.p.kt = [(150 : ℝ)] from rfl,
        show ccon.Tc = (300 : ℝ) from rfl, show ccon.Th = (600 : ℝ) from rfl,
        safe_polyint_k_const 150 300 600 (by norm_num)]
    norm_num
  have hRN : Couple.RengN1 ccon = 300 := by
    delta Couple.RengN1 Couple.RengN Couple.deltaT
    rw [ccon_polys.2.2.2.1, ccon_polys.2.2.2.1]
    norm_num [ccon]
  delta Couple.beta
  rw [if_pos (by rw [ccon_RengP1, ccon_KengN]; norm_num :
        Couple.RengP1 ccon * Couple.KengN ccon ≠ 0),
      ccon_RengP1, hRN, hK, ccon_KengN]
  rw [show (300 : ℝ) * 45000 / (300 * 45000) = 1 by norm_num]
  exact Real.sqrt_one

/-- The full evaluation chain of `run_calc_Couple` on the concrete run:
`SengP = -300`, `SengN = 300`, both `Keng = 45000`, both `Reng1 = 300`,
`ZT_eng = 2`, `a0 = 1`, `a1 = 3/4`, `m = 2`, `denP = denN = 100000`,
hence `alphaP = 1/200000`. -/
lemma ccon_alphaP : Couple.alphaP ccon = 1 / 200000 := by
  have hSP : Couple.SengP ccon = -300 := by
    delta Couple.SengP
    rw [ccon_polys.1, ccon_polys.1]; norm_num [ccon]
  have hSN : Couple.SengN ccon = 300 := by
    delta Couple.SengN
    rw [ccon_polys.2.1, ccon_polys.2.1]; norm_num [ccon]
  have hKP : Couple.KengP ccon = 45000 := by
    delta Couple.KengP
    rw [show ccon.p.kt = [(150 : ℝ)] from rfl,
        show ccon.Tc = (300 : ℝ) from rfl, show ccon.Th = (600 : ℝ) from rfl,
        safe_polyint_k_const 150 300 600 (by norm_num)]
    norm_num
  have hRN : Couple.RengN1 ccon = 300 := by
    delta Couple.RengN1 Couple.RengN Couple.deltaT
    rw [ccon_polys.2.2.2.1, ccon_polys.2.2.2.1]
    norm_num [ccon]
  have hdT : Couple.deltaT ccon = 300 := by
    delta Couple.deltaT; norm_num [ccon]
  have heff : Couple.effc ccon = 1 / 2 := by
    delta Couple.effc; rw [hdT]; norm_num [ccon]
  have hZT : Couple.ZT_eng ccon = 2 := by
    delta Couple.ZT_eng
    rw [hSP, hSN, hdT, hKP, ccon_KengN, ccon_RengP1, hRN]
    have hx : (0 : ℝ) ≤ 45000 * 300 := by norm_num
    have hsq : (Real.sqrt (45000 * 300) + Real.sqrt (45000 * 300)) ^ 2
        = 4 * (45000 * 300) := by
      have h := Real.mul_self_sqrt hx
      calc (Real.sqrt (45000 * 300) + Real.sqrt (45000 * 300)) ^ 2
          = 4 * (Real.sqrt (45000 * 300) * Real.sqrt (45000 * 300)) := by ring
        _ = 4 * (45000 * 300) := by rw [h]
    rw [hsq]
    norm_num
  have ha0 : Couple.a0 ccon = 1 := by
    delta Couple.a0
    rw [hSP, hSN, hdT, heff, ccon_ints.1, ccon_ints.2.1,
        show ccon.Th = (600 : ℝ) from rfl, ccon_polys.2.2.2.2.2.2.1, ccon_polys.2.2.2.2.2.2.2]
    norm_num
  have ha1 : Couple.a1 ccon = 3 / 4 := by
    delta Couple.a1
    rw [ha0, heff, ccon_beta, show ccon.Th = (600 : ℝ) from rfl,
        ccon_ints.2.2.1, ccon_ints.2.2.2, hdT, ccon_RengP1, hRN]
    norm_num [ccon]
  have hm : Couple.m ccon = 2 := by
    delta Couple.m
    rw [hZT, ha1, heff, show (1 : ℝ) + 2 * (3 / 4) / (1 / 2) = 2 ^ 2 by norm_num]
    exact Real.sqrt_sq (by norm_num)
  have hdenP : Couple.denP ccon = 100000 := by
    delta Couple.denP
    rw [hKP, hSP, hSN, hdT, ccon_ints.1, hm, ccon_beta, ccon_RengP1,
        hRN, show ccon.Th = (600 : ℝ) from rfl, ccon_ints.2.2.1, ccon_polys.2.2.2.2.2.2.1]
    norm_num [ccon]
  have hdenN : Couple.denN ccon = 100000 := by
    delta Couple.denN
    rw [ccon_KengN, hSP, hSN, hdT, ccon_ints.2.1, hm, ccon_beta,
        ccon_RengP1, hRN, show ccon.Th = (600 : ℝ) from rfl, ccon_ints.2.2.2,
        ccon_polys.2.2.2.2.2.2.2]
    norm_num [ccon]
  delta Couple.alphaP
  rw [hdenP, hdenN, ccon_beta]
  norm_num [ccon]

lemma ccon_alphaN : Couple.alphaN ccon = 1 / 200000 := by
  delta Couple.alphaN
  rw [ccon_beta, ccon_alphaP]
  norm_num

/-- The couple sampler's point at `Th = 600`, root `m = 2`: the signed
current and load voltage are negative. -/
lemma ccon_sample :
    coupleSample ccon 600 2 = some ⟨600, -400, 20, 2, -(1 / 2000), 400000⟩ := by
  delta coupleSample
  rw [if_neg (by norm_num [ccon] : ¬((600 : ℝ) - ccon.Tc ≤ 0))]
  simp only [ccon_polys.1, ccon_polys.2.1, ccon_polys.2.2.1, ccon_polys.2.2.2.1,
    ccon_alphaP, ccon_beta]
  norm_num [ccon]

/-- Root check: `m = 2` is an exact root of the couple sampler residual at
`Th = 600`. -/
lemma ccon_root : heat_balance_eq_couple ccon 2 600 = 0 := by
  delta heat_balance_eq_couple
  rw [if_neg (by norm_num : ¬((2 : ℝ) < 0)),
      if_neg (by norm_num [ccon] : ¬((600 : ℝ) ≤ ccon.Tc + 1e-6))]
  simp only [ccon_polys.1, ccon_polys.2.1, ccon_polys.2.2.1, ccon_polys.2.2.2.1,
    ccon_alphaP, ccon_beta, ccon_ints.1, ccon_ints.2.1,
    ccon_ints.2.2.1, ccon_ints.2.2.2, ccon_polys.2.2.2.2.2.2.1, ccon_polys.2.2.2.2.2.2.2]
  rw [show ccon.p.kt = [(150 : ℝ)] from rfl,
      show ccon.n.kt = [(150 : ℝ)] from rfl,
      show ccon.Tc = (300 : ℝ) from rfl,
      safe_polyint_k_const 150 300 600 (by norm_num)]
  norm_num [ccon]

lemma ccon_raw_const :
    curveCoupleRaw ccon (fun _ => some 2) (linspace 600 600 50)
      = List.replicate 50 ⟨600, -400, 20, 2, -(1 / 2000), 400000⟩ := by
  delta curveCoupleRaw
  rw [linspace_self]
  exact filterMap_replicate_some _ _ _ ccon_sample 50

/-! ## Claim theorems -/

/-- C7: above `Tc`, the open-circuit residuals handed to `fsolve`
(seeded at `Tmax`) vanish exactly at roots of the pure-conduction
identities `α·K_int(Tc,Th) − Qin = 0` (single leg) and
`αP·K_P + αN·K_N − Qin = 0` (couple); as the statement shows, the
residuals are built from the floored thermal-conductivity integrals alone
— no Seebeck, Joule or Thomson term enters. -/
theorem oc_residual_pure_conduction (i : SingleInput) (c : CoupleInput)
    (Th Thc : ℝ) (h1 : i.Tc < Th) (h2 : c.Tc < Thc) :
    (oc_eq_single i Th = 0 ↔
      alpha_single i * safe_polyint_k i.p_kt i.Tc Th 1e-5 = i.Qin) ∧
    (eq_oc_Couple c Thc = 0 ↔
      Couple.alphaP c * safe_polyint_k c.p.kt c.Tc Thc 1e-5
        + Couple.alphaN c * safe_polyint_k c.n.kt c.Tc Thc 1e-5 = c.Qin) := by
  constructor
  · delta oc_eq_single
    rw [if_pos h1, sub_eq_zero]
  · delta eq_oc_Couple
    rw [if_neg (not_le.mpr h2), sub_eq_zero]

/-- Witness for C7 at the concrete runs, hot-side candidate `400 K`. -/
theorem oc_residual_pure_conduction_witness :
    (oc_eq_single scon 400 = 0 ↔
      alpha_single scon * safe_polyint_k scon.p_kt scon.Tc 400 1e-5 = scon.Qin) ∧
    (eq_oc_Couple ccon 400 = 0 ↔
      Couple.alphaP ccon * safe_polyint_k ccon.p.kt ccon.Tc 400 1e-5
        + Couple.alphaN ccon * safe_polyint_k ccon.n.kt ccon.Tc 400 1e-5
        = ccon.Qin) :=
  oc_residual_pure_conduction scon ccon 400 400
    (by norm_num [scon]) (by norm_num [ccon])

/-- C8: under the source's own guard `RengP1 * KengN ≠ 0`, the couple
optimizer's area ratio is the compatibility value
`β = sqrt(RengN1·KengP / (RengP1·KengN))` (source line 430). -/
theorem run_calc_Couple_beta (c : CoupleInput)
    (h : Couple.RengP1 c * Couple.KengN c ≠ 0) :
    Couple.beta c =
      Real.sqrt (Couple.RengN1 c * Couple.KengP c
        / (Couple.RengP1 c * Couple.KengN c)) := by
  delta Couple.beta
  rw [if_pos h]

/-- Witness for C8 at the concrete couple run
(`RengP1 = 300`, `KengN = 45000`). -/
theorem run_calc_Couple_beta_witness :
    Couple.beta ccon =
      Real.sqrt (Couple.RengN1 ccon * Couple.KengP ccon
        / (Couple.RengP1 ccon * Couple.KengN ccon)) :=
  run_calc_Couple_beta ccon (by rw [ccon_RengP1, ccon_KengN]; norm_num)

/-- C9: whenever `α`, `ΔT` (or the analogous local temperature drop) or a
characteristic resistance is exactly zero, the dependent derived quantity
(`R*_opt`, `R*_sc`, `Isc`, and the operating-point current `I`) is defined
as exactly zero, in both modes; all embedded quantities are total
functions, so no division fault can be raised. -/
theorem degenerate_zero_convention (i : SingleInput) (c : CoupleInput)
    (mi mc Th Thp Thc Thcp : ℝ) :
    ((deltaT i = 0 ∨ alpha_single i = 0) → R_star_opt_single i = 0) ∧
    ((Th - i.Tc = 0 ∨ alpha_single i = 0) → R_star_sc_single i Th = 0) ∧
    (R_star_sc_single i Th = 0 → Isc_single i Th = 0) ∧
    (R_star_atm_single i Thp = 0 → I_atm_single i mi Thp = 0) ∧
    ((Couple.deltaT c = 0 ∨ Couple.alphaP c = 0 ∨ Couple.alphaN c = 0) →
      Couple.R_star_opt c = 0) ∧
    ((Thc - c.Tc = 0 ∨ Couple.alphaP c = 0 ∨ Couple.alphaN c = 0) →
      Couple.R_star_sc c Thc = 0) ∧
    (Couple.R_star_sc c Thc = 0 → Couple.Isc c Thc = 0) ∧
    (R_star_atm_couple c Thcp = 0 → I_atm_couple c mc Thcp = 0) := by
  refine ⟨?_, ?_, ?_, ?_, ?_, ?_, ?_, ?_⟩
  · intro h; delta R_star_opt_single; rw [if_neg (by tauto)]
  · intro h; delta R_star_sc_single; rw [if_neg (by tauto)]
  · intro h; delta Isc_single; simp [h]
  · intro h; delta I_atm_single; simp [h]
  · intro h; delta Couple.R_star_opt; rw [if_pos h]
  · intro h; delta Couple.R_star_sc; rw [if_pos h]
  · intro h; delta Couple.Isc; simp [h]
  · intro h; delta I_atm_couple; simp [h]

/-- A single-leg input with `Tmax = Tc` (degenerate `ΔT = 0`). -/
def sdeg : SingleInput := ⟨[0, 1], [150], [1], 1, 300, 300, 1, 0, 0⟩

/-- A couple input with `Tmax = Tc` (degenerate `ΔT = 0`). -/
def cdeg : CoupleInput :=
  ⟨1, 300, 300, 1, ⟨[0, -1], [150], [1], 0, 0⟩, ⟨[0, 1], [150], [1], 0, 0⟩⟩

/-- Witness for C9 on the degenerate inputs. -/
theorem degenerate_zero_convention_witness :
    R_star_opt_single sdeg = 0 ∧ R_star_sc_single sdeg 300 = 0 ∧
    Isc_single sdeg 300 = 0 ∧ I_atm_single sdeg 5 300 = 0 ∧
    Couple.R_star_opt cdeg = 0 ∧ Couple.R_star_sc cdeg 300 = 0 ∧
    Couple.Isc cdeg 300 = 0 ∧ I_atm_couple cdeg 5 300 = 0 := by
  have T := degenerate_zero_convention sdeg cdeg 5 5 300 300 300 300
  have h1 := T.1 (Or.inl (by norm_num [deltaT, sdeg]))
  have h2 := T.2.1 (Or.inl (by norm_num [sdeg]))
  have h3 := T.2.2.1 h2
  have hatm : R_star_atm_single sdeg 300 = 0 := by
    delta R_star_atm_single
    rw [if_neg (fun hc => hc.2 (by norm_num [sdeg]))]
  have h4 := T.2.2.2.1 hatm
  have h5 := T.2.2.2.2.1 (Or.inl (by norm_num [Couple.deltaT, cdeg]))
  have h6 := T.2.2.2.2.2.1 (Or.inl (by norm_num [cdeg]))
  have h7 := T.2.2.2.2.2.2.1 h6
  have hatmc : R_star_atm_couple cdeg 300 = 0 := by
    delta R_star_atm_couple
    rw [if_neg (fun hc => hc.1 (by norm_num [cdeg]))]
  have h8 := T.2.2.2.2.2.2.2 hatmc
  exact ⟨h1, h2, h3, h4, h5, h6, h7, h8⟩

/-- C2 counterexample: in the couple run with swapped leg polarities,
`Th = 2900/3 > Tc` is an exact root of the open-circuit residual, and the
open-circuit voltage the program reports there is negative (source line
844 takes the signed Seebeck difference, with no absolute value). -/
theorem couple_voc_negative_cex :
    eq_oc_Couple ccon (2900 / 3) = 0 ∧ (300 : ℝ) < 2900 / 3 ∧
    Voc_couple ccon (2900 / 3) < 0 := by
  refine ⟨?_, by norm_num, ?_⟩
  · delta eq_oc_Couple
    rw [if_neg (by norm_num [ccon] : ¬((2900 / 3 : ℝ) ≤ ccon.Tc))]
    rw [ccon_alphaP, ccon_alphaN,
        show ccon.p.kt = [(150 : ℝ)] from rfl,
        show ccon.n.kt = [(150 : ℝ)] from rfl,
        show ccon.Tc = (300 : ℝ) from rfl,
        safe_polyint_k_const 150 300 (2900 / 3) (by norm_num)]
    norm_num [ccon]
  · delta Voc_couple
    rw [ccon_polys.1, ccon_polys.1, ccon_polys.2.1, ccon_polys.2.1]
    norm_num [ccon]

/-- C2 amended: the single-leg `Isc` and `Voc` are absolute values and
hence always non-negative; the couple's `Isc` and `Voc` are signed and are
only non-negative when the P leg's integrated Seebeck dominates the N
leg's (and the short-circuit characteristic resistance is non-negative). -/
theorem isc_voc_nonneg_amended (i : SingleInput) (c : CoupleInput)
    (Th Thc Tho : ℝ)
    (h1 : 0 ≤ Couple.R_star_sc c Thc)
    (h2 : Couple.SengN_sc c Thc ≤ Couple.SengP_sc c Thc)
    (h3 : polyval (Couple.Sum_nst c) Tho - polyval (Couple.Sum_nst c) c.Tc
        ≤ polyval (Couple.Sum_pst c) Tho - polyval (Couple.Sum_pst c) c.Tc) :
    0 ≤ Isc_single i Th ∧ 0 ≤ Voc_single i Th ∧
    0 ≤ Couple.Isc c Thc ∧ 0 ≤ Voc_couple c Tho := by
  refine ⟨?_, ?_, ?_, ?_⟩
  · delta Isc_single
    split
    · exact abs_nonneg _
    · exact le_refl 0
  · exact abs_nonneg _
  · delta Couple.Isc
    split
    · exact div_nonneg (sub_nonneg.mpr h2) h1
    · exact le_refl 0
  · exact sub_nonneg.mpr h3

/-- Witness for the amended C2 at the concrete runs (the couple
hypotheses hold at `Thc = Tho = Tc`, where all integrated quantities
vanish). -/
theorem isc_voc_nonneg_amended_witness :
    0 ≤ Isc_single scon 600 ∧ 0 ≤ Voc_single scon 600 ∧
    0 ≤ Couple.Isc ccon 300 ∧ 0 ≤ Voc_couple ccon 300 :=
  isc_voc_nonneg_amended scon ccon 600 300 300
    (by delta Couple.R_star_sc
        rw [if_pos (Or.inl (show (300 : ℝ) - ccon.Tc = 0 by norm_num [ccon]))])
    (by delta Couple.SengP_sc Couple.SengN_sc
        rw [ccon_polys.1, ccon_polys.1, ccon_polys.2.1, ccon_polys.2.1]
        norm_num [ccon])
    (by rw [ccon_polys.1, ccon_polys.1, ccon_polys.2.1, ccon_polys.2.1];
        norm_num [ccon])

/-- A concrete stand-in for the least-squares solution of `np.polyfit`. -/
def fit0 : List ℝ → List ℝ → ℕ → List ℝ := fun _ _ _ => []

/-- C6 counterexample: a matched `Ts`/`s_t` pair with mismatched lengths
reaches `np.polyfit`, whose length-mismatch `TypeError` does not name the
offending property; the `ValueError(f"Failed to parse S input")` branch is
never reached for this input. -/
theorem parse_mismatched_lengths_cex :
    parse_input fit0 (some [300, 400]) (some [1]) false none false none 4 "S"
      = .error .fitLengthMismatch ∧
    ParseError.fitLengthMismatch ≠ ParseError.failedToParse "S" :=
  ⟨rfl, fun h => ParseError.noConfusion h⟩

/-- C6 amended: when no encoding matches at all, `parse_input` fails with
the `ValueError` naming the property and produces no model; a matched
temperature/value pair with mismatched lengths also fails with no model,
but through `np.polyfit`'s own length-mismatch error, which does not name
the property. -/
theorem parse_input_error_cases :
    (∀ (fit : List ℝ → List ℝ → ℕ → List ℝ) (arrx arry bv ev : Option (List ℝ))
        (deg : ℕ) (v : String),
        (arrx = none ∨ arry = none) →
        parse_input fit arrx arry false bv false ev deg v
          = .error (.failedToParse v)) ∧
    (∀ (fit : List ℝ → List ℝ → ℕ → List ℝ) (xs ys : List ℝ)
        (ib ie : Bool) (bv ev : Option (List ℝ)) (deg : ℕ) (v : String),
        xs.length ≠ ys.length →
        parse_input fit (some xs) (some ys) ib bv ie ev deg v
          = .error .fitLengthMismatch) := by
  constructor
  · intro fit arrx arry bv ev deg v h
    rcases h with h | h
    · subst h; cases arry <;> rfl
    · subst h; cases arrx <;> rfl
  · intro fit xs ys ib ie bv ev deg v h
    show polyfit fit xs ys deg = .error .fitLengthMismatch
    delta polyfit
    rw [if_neg h]

/-- Witness for the amended C6. -/
theorem parse_input_error_cases_witness :
    parse_input fit0 none none false none false none 4 "k"
      = .error (.failedToParse "k") ∧
    parse_input fit0 (some [1, 2]) (some [3]) false none false none 4 "k"
      = .error .fitLengthMismatch :=
  ⟨parse_input_error_cases.1 fit0 none none none none 4 "k" (Or.inl rfl),
   parse_input_error_cases.2 fit0 [1, 2] [3] false false none none 4 "k"
     (by decide)⟩

/-! ## Curve assembly helpers -/

lemma assembleCurve_of_ne_nil (ts tOc voc isc rso : ℝ) (pts : List CurvePoint)
    (h : pts ≠ []) :
    assembleCurve ts tOc voc isc rso pts =
      ⟨ts :: pts.map (·.th) ++ [tOc],
       0 :: pts.map (·.v) ++ [voc],
       0 :: pts.map (·.eta) ++ [0],
       0 :: pts.map (·.m) ++ [1e9],
       isc :: pts.map (·.i) ++ [0],
       rso :: pts.map (·.rstar) ++ [rso]⟩ := by
  delta assembleCurve
  rw [if_pos (Nat.one_le_iff_ne_zero.mpr
        (fun hl => h (List.length_eq_zero.mp hl)))]

lemma head_cons_append {α : Type _} (x y : α) (l : List α) :
    ((x :: l) ++ [y]).head? = some x := by
  simp

lemma getLast_cons_append {α : Type _} (x y : α) (l : List α) :
    ((x :: l) ++ [y]).getLast? = some y :=
  List.getLast?_concat _

/-- C10: whenever at least one swept sample survives, both samplers
prepend a short-circuit element recording `m = 0` and append an
open-circuit element recording the sentinel `m = 1e9` — which lies outside
the solve bracket `(0, 1e7]` — and both endpoint elements record the
design optimum's characteristic resistance `R_star_opt`, not resistances
evaluated at `Th_sc` or `Th_oc`. -/
theorem curve_endpoint_sentinels (i : SingleInput) (c : CoupleInput)
    (ts1 to1 ts2 to2 : ℝ) (s1 s2 : ℝ → Option ℝ)
    (h1 : curveSingleRaw i s1 (linspace ts1 to1 50) ≠ [])
    (h2 : curveCoupleRaw c s2 (linspace ts2 to2 50) ≠ []) :
    ((generate_single_leg_curve_data i ts1 to1 s1).m.head? = some 0 ∧
     (generate_single_leg_curve_data i ts1 to1 s1).m.getLast? = some 1e9 ∧
     (generate_single_leg_curve_data i ts1 to1 s1).rstar.head?
        = some (R_star_opt_single i) ∧
     (generate_single_leg_curve_data i ts1 to1 s1).rstar.getLast?
        = some (R_star_opt_single i)) ∧
    ((generate_Couple_curve_data c ts2 to2 s2).m.head? = some 0 ∧
     (generate_Couple_curve_data c ts2 to2 s2).m.getLast? = some 1e9 ∧
     (generate_Couple_curve_data c ts2 to2 s2).rstar.head?
        = some (Couple.R_star_opt c) ∧
     (generate_Couple_curve_data c ts2 to2 s2).rstar.getLast?
        = some (Couple.R_star_opt c)) ∧
    ¬ ((0 : ℝ) < 1e9 ∧ (1e9 : ℝ) ≤ 1e7) := by
  delta generate_single_leg_curve_data generate_Couple_curve_data
  rw [assembleCurve_of_ne_nil _ _ _ _ _ _ h1,
      assembleCurve_of_ne_nil _ _ _ _ _ _ h2]
  refine ⟨⟨?_, ?_, ?_, ?_⟩, ⟨?_, ?_, ?_, ?_⟩, by norm_num⟩ <;>
    first
      | exact head_cons_append _ _ _
      | exact getLast_cons_append _ _ _

/-- Witness for C10 on the concrete runs (all 50 swept samples converge
at `Th = 600`). -/
theorem curve_endpoint_sentinels_witness :
    (generate_single_leg_curve_data scon 600 600 (fun _ => some 2)).m.head?
      = some 0 ∧
    (generate_single_leg_curve_data scon 600 600 (fun _ => some 2)).m.getLast?
      = some 1e9 ∧
    (generate_Couple_curve_data ccon 600 600 (fun _ => some 2)).rstar.head?
      = some (Couple.R_star_opt ccon) ∧
    (generate_Couple_curve_data ccon 600 600 (fun _ => some 2)).rstar.getLast?
      = some (Couple.R_star_opt ccon) := by
  have T := curve_endpoint_sentinels scon ccon 600 600 600 600
    (fun _ => some 2) (fun _ => some 2)
    (by rw [scon_raw_const]; simp)
    (by rw [ccon_raw_const]; simp)
  exact ⟨T.1.1, T.1.2.1, T.2.1.2.2.1, T.2.1.2.2.2⟩

/-- C3 amended: whenever at least one swept sample survives, the first
element of the generated curve has `V = 0` and `I = Isc` and the last has
`V = Voc` and `I = 0`, in both modes; monotonicity of the load-voltage
sequence is NOT guaranteed (see the counterexample). -/
theorem load_curve_endpoints_amended (i : SingleInput) (c : CoupleInput)
    (ts1 to1 ts2 to2 : ℝ) (s1 s2 : ℝ → Option ℝ)
    (h1 : curveSingleRaw i s1 (linspace ts1 to1 50) ≠ [])
    (h2 : curveCoupleRaw c s2 (linspace ts2 to2 50) ≠ []) :
    ((generate_single_leg_curve_data i ts1 to1 s1).v_load.head? = some 0 ∧
     (generate_single_leg_curve_data i ts1 to1 s1).i.head?
        = some (Isc_single i ts1) ∧
     (generate_single_leg_curve_data i ts1 to1 s1).v_load.getLast?
        = some (Voc_single i to1) ∧
     (generate_single_leg_curve_data i ts1 to1 s1).i.getLast? = some 0) ∧
    ((generate_Couple_curve_data c ts2 to2 s2).v_load.head? = some 0 ∧
     (generate_Couple_curve_data c ts2 to2 s2).i.head?
        = some (Couple.Isc c ts2) ∧
     (generate_Couple_curve_data c ts2 to2 s2).v_load.getLast?
        = some (Voc_couple c to2) ∧
     (generate_Couple_curve_data c ts2 to2 s2).i.getLast? = some 0) := by
  delta generate_single_leg_curve_data generate_Couple_curve_data
  rw [assembleCurve_of_ne_nil _ _ _ _ _ _ h1,
      assembleCurve_of_ne_nil _ _ _ _ _ _ h2]
  refine ⟨⟨?_, ?_, ?_, ?_⟩, ⟨?_, ?_, ?_, ?_⟩⟩ <;>
    first
      | exact head_cons_append _ _ _
      | exact getLast_cons_append _ _ _

/-- Witness for the amended C3 on the concrete runs. -/
theorem load_curve_endpoints_amended_witness :
    (generate_single_leg_curve_data scon 600 600 (fun _ => some 2)).v_load.head?
      = some 0 ∧
    (generate_single_leg_curve_data scon 600 600
      (fun _ => some 2)).v_load.getLast? = some (Voc_single scon 600) ∧
    (generate_Couple_curve_data ccon 600 600 (fun _ => some 2)).i.head?
      = some (Couple.Isc ccon 600) ∧
    (generate_Couple_curve_data ccon 600 600 (fun _ => some 2)).i.getLast?
      = some 0 := by
  have T := load_curve_endpoints_amended scon ccon 600 600 600 600
    (fun _ => some 2) (fun _ => some 2)
    (by rw [scon_raw_const]; simp)
    (by rw [ccon_raw_const]; simp)
  exact ⟨T.1.1, T.1.2.2.1, T.2.2.1, T.2.2.2.2⟩

/-- C3 counterexample: in the swapped-polarity couple run every surviving
sample has a negative load voltage (`m = 2` is an exact root of the
residual at `Th = 600`), so the generated load-voltage sequence starts
`0, -400, ...` and is not non-decreasing. -/
theorem load_curve_monotone_cex :
    heat_balance_eq_couple ccon 2 600 = 0 ∧
    curveCoupleRaw ccon (fun _ => some 2) (linspace 600 600 50) ≠ [] ∧
    ¬ List.Chain' (· ≤ ·)
        (generate_Couple_curve_data ccon 600 600 (fun _ => some 2)).v_load := by
  refine ⟨ccon_root, by rw [ccon_raw_const]; simp, ?_⟩
  delta generate_Couple_curve_data
  rw [ccon_raw_const, assembleCurve_of_ne_nil _ _ _ _ _ _ (by simp)]
  intro hchain
  have hv : Voc_couple ccon 600 = -600 := by
    delta Voc_couple
    rw [ccon_polys.1, ccon_polys.1, ccon_polys.2.1, ccon_polys.2.1]
    norm_num [ccon]
  rw [List.map_replicate, hv] at hchain
  rw [show (50 : ℕ) = 49 + 1 from rfl, List.replicate_succ] at hchain
  rw [List.cons_append, List.cons_append] at hchain
  have h0 := (List.chain'_cons.mp hchain).1
  norm_num at h0

/-! ## Sampler error handling (C4) -/

/-- C4 amended: a per-sample solver non-convergence (or exception) omits
only that sample in both samplers; the overall generation fails exactly
when the padded `v_load` has fewer than three entries, i.e. exactly when
NO swept sample survives (a single surviving sample already yields the
three points short-circuit / sample / open-circuit). -/
theorem sampler_omission_failure_amended :
    (∀ (i : SingleInput) (solve : ℝ → Option ℝ) (ths1 ths2 : List ℝ) (th0 : ℝ),
        solve th0 = none →
        curveSingleRaw i solve (ths1 ++ th0 :: ths2)
          = curveSingleRaw i solve (ths1 ++ ths2)) ∧
    (∀ (i : SingleInput) (ts tOc : ℝ) (solve : ℝ → Option ℝ),
        on_generate_fails (generate_single_leg_curve_data i ts tOc solve) ↔
        curveSingleRaw i solve (linspace ts tOc 50) = []) ∧
    (∀ (c : CoupleInput) (solve : ℝ → Option ℝ) (ths1 ths2 : List ℝ) (th0 : ℝ),
        solve th0 = none →
        curveCoupleRaw c solve (ths1 ++ th0 :: ths2)
          = curveCoupleRaw c solve (ths1 ++ ths2)) ∧
    (∀ (c : CoupleInput) (ts tOc : ℝ) (solve : ℝ → Option ℝ),
        on_generate_fails (generate_Couple_curve_data c ts tOc solve) ↔
        curveCoupleRaw c solve (linspace ts tOc 50) = []) := by
  refine ⟨?_, ?_, ?_, ?_⟩
  · intro i solve ths1 ths2 th0 h
    delta curveSingleRaw
    rw [List.filterMap_append, List.filterMap_append, List.filterMap_cons]
    simp [h]
  · intro i ts tOc solve
    by_cases hp : curveSingleRaw i solve (linspace ts tOc 50) = []
    · delta generate_single_leg_curve_data on_generate_fails assembleCurve
      rw [hp]
      simp
    · delta generate_single_leg_curve_data
      rw [assembleCurve_of_ne_nil _ _ _ _ _ _ hp]
      have hl : 1 ≤ (curveSingleRaw i solve (linspace ts tOc 50)).length :=
        Nat.one_le_iff_ne_zero.mpr (fun h0 => hp (List.length_eq_zero.mp h0))
      delta on_generate_fails
      simp only [List.length_cons, List.length_append,
        List.length_map, List.length_singleton]
      constructor
      · intro h; omega
      · intro h; exact absurd h hp
  · intro c solve ths1 ths2 th0 h
    delta curveCoupleRaw
    rw [List.filterMap_append, List.filterMap_append, List.filterMap_cons]
    simp [h]
  · intro c ts tOc solve
    by_cases hp : curveCoupleRaw c solve (linspace ts tOc 50) = []
    · delta generate_Couple_curve_data on_generate_fails assembleCurve
      rw [hp]
      simp
    · delta generate_Couple_curve_data
      rw [assembleCurve_of_ne_nil _ _ _ _ _ _ hp]
      have hl : 1 ≤ (curveCoupleRaw c solve (linspace ts tOc 50)).length :=
        Nat.one_le_iff_ne_zero.mpr (fun h0 => hp (List.length_eq_zero.mp h0))
      delta on_generate_fails
      simp only [List.length_cons, List.length_append,
        List.length_map, List.length_singleton]
      constructor
      · intro h; omega
      · intro h; exact absurd h hp

/-- The solver outcome of the counterexample run: `brentq` converges (to
the exact root `2`) at the one sweep point above `Tc`, and fails to
converge everywhere else (below `Tc` the residual is the constant `-Qin`,
so the bracket `[1e-12, 1e7]` cannot change sign). -/
def solve_c4 : ℝ → Option ℝ := fun th => if th = 600 then some 2 else none

lemma linspace_c4 :
    linspace 600 (-14100) 50
      = 600 :: (List.range 49).map (fun j : ℕ => 600 - 300 * ((j : ℝ) + 1)) := by
  delta linspace
  rw [show (50 : ℕ) = 49 + 1 from rfl, List.range_succ_eq_map,
      List.map_cons, List.map_map]
  congr 1
  · norm_num
  · apply List.map_congr_left
    intro j _
    show 600 + (-14100 - 600 : ℝ) * (j + 1 : ℕ) / ((49 + 1 : ℕ) - 1) = _
    push_cast
    ring

lemma solve_c4_600 : solve_c4 600 = some 2 := if_pos rfl

lemma c4_raw :
    curveSingleRaw scon solve_c4 (linspace 600 (-14100) 50)
      = [⟨600, 200, 20, 2, 1 / 1000, 100000⟩] := by
  delta curveSingleRaw
  rw [linspace_c4, List.filterMap_cons]
  rw [show (solve_c4 (600 : ℝ)).bind (fun mv => singleSample scon 600 mv)
      = some ⟨600, 200, 20, 2, 1 / 1000, 100000⟩ by
    rw [solve_c4_600, Option.some_bind]; exact scon_sample]
  rw [List.filterMap_eq_nil_iff.mpr ?_]
  · intro a ha
    obtain ⟨j, _, rfl⟩ := List.mem_map.mp ha
    have hne : (600 : ℝ) - 300 * ((j : ℝ) + 1) ≠ 600 := by
      have hj : (0 : ℝ) ≤ (j : ℝ) := Nat.cast_nonneg j
      intro h
      nlinarith
    rw [show solve_c4 (600 - 300 * ((j : ℝ) + 1)) = none from if_neg hne]
    rfl

/-- C4 counterexample: a run in which exactly ONE swept sample converges;
the padded curve has three points, so `on_generate_curves` does NOT fail,
although fewer than three samples converged.  (`m = 2` is an exact root of
the residual at the surviving sample `Th = 600`.) -/
theorem sampler_failure_threshold_cex :
    (curveSingleRaw scon solve_c4 (linspace 600 (-14100) 50)).length = 1 ∧
    (1 : ℕ) < 3 ∧
    ¬ on_generate_fails
        (generate_single_leg_curve_data scon 600 (-14100) solve_c4) ∧
    heat_balance_eq_single scon 2 600 = 0 := by
  refine ⟨by rw [c4_raw]; rfl, by norm_num, ?_, scon_root⟩
  delta generate_single_leg_curve_data on_generate_fails
  rw [c4_raw, assembleCurve_of_ne_nil _ _ _ _ _ _ (by simp)]
  simp

/-- Witness for the amended C4. -/
theorem sampler_omission_failure_amended_witness :
    curveSingleRaw scon solve_c4 ([] ++ (300 : ℝ) :: [])
      = curveSingleRaw scon solve_c4 ([] ++ []) ∧
    (on_generate_fails (generate_single_leg_curve_data scon 600 (-14100) solve_c4)
      ↔ curveSingleRaw scon solve_c4 (linspace 600 (-14100) 50) = []) ∧
    curveCoupleRaw ccon (fun _ => none) ([] ++ (300 : ℝ) :: [])
      = curveCoupleRaw ccon (fun _ => none) ([] ++ []) ∧
    (on_generate_fails (generate_Couple_curve_data ccon 600 600 (fun _ => some 2))
      ↔ curveCoupleRaw ccon (fun _ => some 2) (linspace 600 600 50) = []) :=
  ⟨sampler_omission_failure_amended.1 scon solve_c4 [] [] 300
      (if_neg (by norm_num)),
   sampler_omission_failure_amended.2.1 scon 600 (-14100) solve_c4,
   sampler_omission_failure_amended.2.2.1 ccon (fun _ => none) [] [] 300 rfl,
   sampler_omission_failure_amended.2.2.2 ccon 600 600 (fun _ => some 2)⟩

end

end TEG
